import Mathlib

/-!
# Verification of the Atlantis project command runner

Shallow embedding of `server/events/project_command_runner.go` and
`server/events/vcs/github_client.go` (package constants referenced from
`server/events/yaml/raw`). Collaborator interfaces (`ProjectLocker`,
`WorkingDir`, `WorkingDirLocker`, `StepRunner`, `PullApprovedChecker`,
`WebhooksSender`, `LockURLGenerator`) are modelled as function-valued
fields of the runner structure, exactly as they are injected struct
fields in the Go code.  Logger parameters are omitted: the code only
writes log lines through them, which affects no claim.  Side effects of
interest (lock acquisition and release, cloning, step-executor dispatch,
approval checks, webhook sends) are recorded in an explicit event trace
returned alongside each function's Go return values.
-/

set_option autoImplicit false

namespace Atlantis

/-- A Go `error` value: `none` is the nil error, `some msg` an error whose
`Error()` string is `msg`. -/
abbrev GoErr := Option String

/-- Embeds `models.Repo`, restricted to the fields this code reads. -/
structure Repo where
  fullName : String
  owner : String
  name : String
  deriving DecidableEq, Repr

/-- Embeds `models.PullRequest`, restricted to the fields this code reads. -/
structure PullRequest where
  num : Int
  headCommit : String
  deriving DecidableEq, Repr

/-- Embeds `models.Project`; `models.NewProject(repoFullName, path)` is the
anonymous constructor. -/
structure Project where
  repoFullName : String
  path : String
  deriving DecidableEq, Repr

/-- Embeds `valid.Step` from the yaml config package: a step name, the extra
arguments for init/plan/apply steps, and the command words for `run`
steps. -/
structure Step where
  stepName : String
  extraArgs : List String
  runCommand : List String
  deriving DecidableEq, Repr

/-- Embeds `valid.Stage`: an ordered list of steps. -/
structure Stage where
  steps : List Step
  deriving DecidableEq, Repr

/-- The parts of `valid.ProjectConfig` read by the runner: the optional
workflow name (`*string` in Go) and the apply requirements list. -/
structure ProjectConfig where
  workflow : Option String
  applyRequirements : List String

/-- The parts of `valid.Config` (the global config) read by the runner:
`GetPlanStage` and `GetApplyStage` look a workflow name up and return a
stage pointer (`nil` = `none`). -/
structure GlobalConfig where
  getPlanStage : String → Option Stage
  getApplyStage : String → Option Stage

/-- Embeds `models.ProjectCommandContext`: the immutable request descriptor.
`projectName` stands for the value of `ctx.GetProjectName()`. -/
structure ProjectCommandContext where
  baseRepo : Repo
  headRepo : Repo
  pull : PullRequest
  user : String
  workspace : String
  repoRelDir : String
  projectConfig : Option ProjectConfig
  globalConfig : GlobalConfig
  rebaseRepo : Bool
  rePlanCmd : String
  applyCmd : String
  projectName : String

/-- Embeds `PlanSuccess`: the result of a successful plan. -/
structure PlanSuccess where
  terraformOutput : String
  lockURL : String
  rePlanCmd : String
  applyCmd : String
  deriving DecidableEq, Repr

/-- Embeds `ProjectResult` as assembled by `Plan` and `Apply`: a Go struct whose
zero values are `nil` (`none`), `""` and `nil` error. -/
structure ProjectResult where
  planSuccess : Option PlanSuccess
  applySuccess : String
  failure : String
  error : GoErr
  repoRelDir : String
  workspace : String
  projectName : String
  deriving DecidableEq, Repr

/-- Embeds the `TryLockResponse` of the `ProjectLocker` collaborator, as read by
`doPlan`: the acquired flag, the failure reason, the lock key, and the
outcome the `UnlockFn` closure would report if invoked. -/
structure LockAttempt where
  lockAcquired : Bool
  lockFailureReason : String
  lockKey : String
  unlockResult : GoErr
  deriving DecidableEq, Repr

/-- Error returned by `WorkingDir.GetWorkingDir`, carrying its message
and whether `os.IsNotExist` holds of it. -/
structure FsErr where
  msg : String
  isNotExist : Bool
  deriving DecidableEq, Repr

/-- Embeds `webhooks.ApplyResult`, the payload of the webhook send. -/
structure ApplyResult where
  workspace : String
  user : String
  repo : Repo
  pull : PullRequest
  success : Bool

/-- Observable side effects of one `Plan`/`Apply` call, in the order the
code performs them.  `stepExec kind idx` records that the executor for
step kind `kind` was dispatched for the step at position `idx` of the
stage; `projectUnlock` records an invocation of the project lock's
`UnlockFn`; `workDirUnlock` the invocation of the working-directory
lock's release function. -/
inductive Event where
  | projectLockTry
  | projectUnlock
  | workDirLockTry
  | workDirUnlock
  | cloneCall
  | getWorkingDirCall
  | approvalCheck
  | stepExec (kind : String) (idx : Nat)
  | webhookSend (success : Bool)
  deriving DecidableEq, Repr

/-- Embeds `raw.ApprovedApplyRequirement`, the single requirement identifier the
yaml package defines. -/
def ApprovedApplyRequirement : String := "approved"

/-- Embeds `DefaultProjectCommandRunner` with its injected collaborators as
function fields.  `locker` is `ProjectLocker.TryLock` (logger omitted);
`workingDirLocker` is `WorkingDirLocker.TryLock`, whose successful result
(a release closure) is represented by the `workDirUnlock` trace event;
`workingDirClone` / `workingDirGetWorkingDir` are the two `WorkingDir`
methods used; `webhooksSend` is `WebhooksSender.Send`. -/
structure DefaultProjectCommandRunner where
  locker : PullRequest → String → String → Project → LockAttempt × GoErr
  lockURLGenerator : String → String
  initStepRunner : ProjectCommandContext → List String → String → String × GoErr
  planStepRunner : ProjectCommandContext → List String → String → String × GoErr
  applyStepRunner : ProjectCommandContext → List String → String → String × GoErr
  runStepRunner : ProjectCommandContext → List String → String → String × GoErr
  pullApprovedChecker : Repo → PullRequest → Bool × GoErr
  workingDirClone : Repo → Repo → PullRequest → Bool → String → String × GoErr
  workingDirGetWorkingDir : Repo → PullRequest → String → String × Option FsErr
  webhooksSend : ApplyResult → GoErr
  workingDirLocker : String → Int → String → GoErr
  requireApprovalOverride : Bool

/-- Embeds `filepath.Join(a, b)`.  Go additionally runs `Clean` over the joined
path; no claim depends on the normalized spelling of the path, so the
embedding keeps the plain separator join. -/
def filepathJoin (a b : String) : String :=
  if a = "" then b else if b = "" then a else a ++ "/" ++ b

/-- Embeds `errors.Wrap(err, msg)` from `github.com/pkg/errors`: the wrapped
error's message is `msg ++ ": " ++ err`. -/
def errorsWrap (msg err : String) : String := msg ++ ": " ++ err

/-- Embeds `defaultPlanStage`. -/
def defaultPlanStage : Stage :=
  { steps := [{ stepName := "init", extraArgs := [], runCommand := [] },
              { stepName := "plan", extraArgs := [], runCommand := [] }] }

/-- Embeds `defaultApplyStage`. -/
def defaultApplyStage : Stage :=
  { steps := [{ stepName := "apply", extraArgs := [], runCommand := [] }] }

/-- The stage selected by `doPlan`: the default plan stage unless the
project config names a workflow and `GetPlanStage` resolves it. -/
def planStageFor (ctx : ProjectCommandContext) : Stage :=
  match ctx.projectConfig with
  | none => defaultPlanStage
  | some pc =>
    match pc.workflow with
    | none => defaultPlanStage
    | some wf =>
      match ctx.globalConfig.getPlanStage wf with
      | none => defaultPlanStage
      | some s => s

/-- The stage selected by `doApply`: the default apply stage unless the
project config names a workflow and `GetApplyStage` resolves it. -/
def applyStageFor (ctx : ProjectCommandContext) : Stage :=
  match ctx.projectConfig with
  | none => defaultApplyStage
  | some pc =>
    match pc.workflow with
    | none => defaultApplyStage
    | some wf =>
      match ctx.globalConfig.getApplyStage wf with
      | none => defaultApplyStage
      | some s => s

/-- The `switch step.StepName` statement in `runSteps`: returns the
`(out, err)` pair of the dispatched executor together with `some kind`
naming the executor, or `("", nil)` with `none` when no case matches
(the declared zero values of `out` and `err`). -/
def execStep (p : DefaultProjectCommandRunner) (ctx : ProjectCommandContext)
    (absPath : String) (step : Step) : String × GoErr × Option String :=
  match step.stepName with
  | "init" =>
    let r := p.initStepRunner ctx step.extraArgs absPath
    (r.1, r.2, some "init")
  | "plan" =>
    let r := p.planStepRunner ctx step.extraArgs absPath
    (r.1, r.2, some "plan")
  | "apply" =>
    let r := p.applyStepRunner ctx step.extraArgs absPath
    (r.1, r.2, some "apply")
  | "run" =>
    let r := p.runStepRunner ctx step.runCommand absPath
    (r.1, r.2, some "run")
  | _ => ("", none, none)

/-- The loop body of `runSteps`, with the running position `i` (used only
for the trace) and the `outputs` accumulator.  Each step's output is
appended when non-empty, then a non-nil error returns immediately with
the outputs so far. -/
def runStepsFrom (p : DefaultProjectCommandRunner) (ctx : ProjectCommandContext)
    (absPath : String) : List Step → Nat → List String →
    List String × GoErr × List Event
  | [], _, outputs => (outputs, none, [])
  | step :: rest, i, outputs =>
    let r := execStep p ctx absPath step
    let evs : List Event :=
      match r.2.2 with
      | some kind => [Event.stepExec kind i]
      | none => []
    let outputs := if r.1 ≠ "" then outputs ++ [r.1] else outputs
    match r.2.1 with
    | some e => (outputs, some e, evs)
    | none =>
      let rec_ := runStepsFrom p ctx absPath rest (i + 1) outputs
      (rec_.1, rec_.2.1, evs ++ rec_.2.2)

/-- Embeds `runSteps`. -/
def runSteps (p : DefaultProjectCommandRunner) (steps : List Step)
    (ctx : ProjectCommandContext) (absPath : String) :
    List String × GoErr × List Event :=
  runStepsFrom p ctx absPath steps 0 []

/-- Embeds `doPlan`, returning its Go results `(*PlanSuccess, string, error)`
paired with the trace of side effects.  The deferred working-directory
unlock runs on every exit path reached after its acquisition. -/
def doPlan (p : DefaultProjectCommandRunner) (ctx : ProjectCommandContext) :
    (Option PlanSuccess × String × GoErr) × List Event :=
  let la := p.locker ctx.pull ctx.user ctx.workspace
      (Project.mk ctx.baseRepo.fullName ctx.repoRelDir)
  let lockAttempt := la.1
  match la.2 with
  | some e => ((none, "", some (errorsWrap "acquiring lock" e)), [Event.projectLockTry])
  | none =>
    if !lockAttempt.lockAcquired then
      ((none, lockAttempt.lockFailureReason, none), [Event.projectLockTry])
    else
      match p.workingDirLocker ctx.baseRepo.fullName ctx.pull.num ctx.workspace with
      | some e =>
        ((none, "", some e), [Event.projectLockTry, Event.workDirLockTry])
      | none =>
        let cl := p.workingDirClone ctx.baseRepo ctx.headRepo ctx.pull
            ctx.rebaseRepo ctx.workspace
        match cl.2 with
        | some cloneErr =>
          ((none, "", some cloneErr),
           [Event.projectLockTry, Event.workDirLockTry, Event.cloneCall,
            Event.projectUnlock, Event.workDirUnlock])
        | none =>
          let projAbsPath := filepathJoin cl.1 ctx.repoRelDir
          let stage := planStageFor ctx
          let rs := runSteps p stage.steps ctx projAbsPath
          match rs.2.1 with
          | some e =>
            ((none, "",
              some (e ++ "\n" ++ String.intercalate "\n" rs.1)),
             [Event.projectLockTry, Event.workDirLockTry, Event.cloneCall]
               ++ rs.2.2 ++ [Event.projectUnlock, Event.workDirUnlock])
          | none =>
            ((some { lockURL := p.lockURLGenerator lockAttempt.lockKey,
                     terraformOutput := String.intercalate "\n" rs.1,
                     rePlanCmd := ctx.rePlanCmd,
                     applyCmd := ctx.applyCmd }, "", none),
             [Event.projectLockTry, Event.workDirLockTry, Event.cloneCall]
               ++ rs.2.2 ++ [Event.workDirUnlock])

/-- Embeds `Plan`: wraps `doPlan`'s results into a `ProjectResult`. -/
def Plan (p : DefaultProjectCommandRunner) (ctx : ProjectCommandContext) :
    ProjectResult × List Event :=
  let r := doPlan p ctx
  ({ planSuccess := r.1.1
     applySuccess := ""
     failure := r.1.2.1
     error := r.1.2.2
     repoRelDir := ctx.repoRelDir
     workspace := ctx.workspace
     projectName := ctx.projectName }, r.2)

/-- Outcome of the apply-requirements loop in `doApply`. -/
inductive ReqOutcome where
  | ok
  | failure (msg : String)
  | error (msg : String)
  deriving DecidableEq, Repr

/-- The `for _, req := range applyRequirements` loop of `doApply`: only
the `"approved"` case is handled; an approval-check error returns a
wrapped error, an unapproved pull returns the fixed failure string, and
every other requirement identifier falls through. -/
def checkApplyRequirements (p : DefaultProjectCommandRunner)
    (ctx : ProjectCommandContext) : List String → ReqOutcome × List Event
  | [] => (ReqOutcome.ok, [])
  | req :: rest =>
    if req = ApprovedApplyRequirement then
      let ac := p.pullApprovedChecker ctx.baseRepo ctx.pull
      match ac.2 with
      | some e =>
        (ReqOutcome.error (errorsWrap "checking if pull request was approved" e),
         [Event.approvalCheck])
      | none =>
        if !ac.1 then
          (ReqOutcome.failure "Pull request must be approved before running apply.",
           [Event.approvalCheck])
        else
          let r := checkApplyRequirements p ctx rest
          (r.1, Event.approvalCheck :: r.2)
    else
      checkApplyRequirements p ctx rest

/-- The effective apply-requirements list computed at the top of
`doApply`: the project config's list (empty when there is no config),
replaced wholesale by `["approved"]` when the server-wide override is
set. -/
def effectiveApplyRequirements (p : DefaultProjectCommandRunner)
    (ctx : ProjectCommandContext) : List String :=
  let fromConfig :=
    match ctx.projectConfig with
    | some pc => pc.applyRequirements
    | none => []
  if p.requireApprovalOverride then [ApprovedApplyRequirement] else fromConfig

/-- Embeds `doApply`, returning its Go results `(applyOut, failure, err)` paired
with the trace.  The webhook is sent after the step pipeline regardless
of its outcome and its own error is discarded. -/
def doApply (p : DefaultProjectCommandRunner) (ctx : ProjectCommandContext) :
    (String × String × GoErr) × List Event :=
  let gw := p.workingDirGetWorkingDir ctx.baseRepo ctx.pull ctx.workspace
  match gw.2 with
  | some fe =>
    if fe.isNotExist then
      (("", "", some "project has not been cloned–did you run plan?"),
       [Event.getWorkingDirCall])
    else
      (("", "", some fe.msg), [Event.getWorkingDirCall])
  | none =>
    let absPath := filepathJoin gw.1 ctx.repoRelDir
    let rq := checkApplyRequirements p ctx (effectiveApplyRequirements p ctx)
    match rq.1 with
    | ReqOutcome.error e =>
      (("", "", some e), Event.getWorkingDirCall :: rq.2)
    | ReqOutcome.failure f =>
      (("", f, none), Event.getWorkingDirCall :: rq.2)
    | ReqOutcome.ok =>
      match p.workingDirLocker ctx.baseRepo.fullName ctx.pull.num ctx.workspace with
      | some e =>
        (("", "", some e),
         Event.getWorkingDirCall :: rq.2 ++ [Event.workDirLockTry])
      | none =>
        let stage := applyStageFor ctx
        let rs := runSteps p stage.steps ctx absPath
        let whEv := Event.webhookSend (rs.2.1 = none)
        match rs.2.1 with
        | some e =>
          (("", "", some (e ++ "\n" ++ String.intercalate "\n" rs.1)),
           Event.getWorkingDirCall :: rq.2 ++ [Event.workDirLockTry]
             ++ rs.2.2 ++ [whEv, Event.workDirUnlock])
        | none =>
          ((String.intercalate "\n" rs.1, "", none),
           Event.getWorkingDirCall :: rq.2 ++ [Event.workDirLockTry]
             ++ rs.2.2 ++ [whEv, Event.workDirUnlock])

/-- Embeds `Apply`: wraps `doApply`'s results into a `ProjectResult`. -/
def Apply (p : DefaultProjectCommandRunner) (ctx : ProjectCommandContext) :
    ProjectResult × List Event :=
  let r := doApply p ctx
  ({ planSuccess := none
     applySuccess := r.1.1
     failure := r.1.2.1
     error := r.1.2.2
     repoRelDir := ctx.repoRelDir
     workspace := ctx.workspace
     projectName := ctx.projectName }, r.2)


/-- Embeds the `Mergeable` field of `github.PullRequest` from go-github, a
`*bool` that GitHub leaves unset (`nil`) e.g. while mergeability is still
being computed. -/
structure GithubPullRequest where
  mergeable : Option Bool
  deriving DecidableEq, Repr

/-- Embeds `GithubClient`: the underlying API call
`client.PullRequests.Get` is the injected response function. -/
structure GithubClient where
  getPullRequestResp : Repo → Int → GithubPullRequest × GoErr

/-- Result of a Go computation that may hit a nil-pointer dereference:
`panicked` marks the runtime panic, `ok` a normal return. -/
inductive PanicOr (α : Type) where
  | panicked
  | ok (val : α)
  deriving DecidableEq, Repr

/-- Embeds `GithubClient.GetPullRequest`: forwards the API response
`(pull, err)`. -/
def GetPullRequest (g : GithubClient) (repo : Repo) (num : Int) :
    GithubPullRequest × GoErr :=
  g.getPullRequestResp repo num

/-- Embeds `GithubClient.PullIsApproved`: on a non-nil error it returns
`(false, err)`; otherwise it dereferences `request.Mergeable` — a panic
when that pointer is nil — and returns the dereferenced flag. -/
def PullIsApproved (g : GithubClient) (repo : Repo) (pull : PullRequest) :
    PanicOr (Bool × GoErr) :=
  let r := GetPullRequest g repo pull.num
  match r.2 with
  | some e => PanicOr.ok (false, some e)
  | none =>
    match r.1.mergeable with
    | none => PanicOr.panicked
    | some b => PanicOr.ok (b, none)

/-! ## Concrete fixtures used by counterexamples and witnesses -/

/-- A concrete repository. -/
def repo0 : Repo := { fullName := "owner/repo", owner := "owner", name := "repo" }

/-- A concrete pull request. -/
def pull0 : PullRequest := { num := 1, headCommit := "abc123" }

/-- A global config resolving no workflow. -/
def gconf0 : GlobalConfig := { getPlanStage := fun _ => none, getApplyStage := fun _ => none }

/-- A concrete request context with no project config, so both commands
use the built-in default stages. -/
def ctx0 : ProjectCommandContext :=
  { baseRepo := repo0
    headRepo := repo0
    pull := pull0
    user := "user"
    workspace := "default"
    repoRelDir := "dir"
    projectConfig := none
    globalConfig := gconf0
    rebaseRepo := false
    rePlanCmd := "atlantis plan -d dir"
    applyCmd := "atlantis apply -d dir"
    projectName := "" }

/-- A successful project-lock attempt. -/
def lockOk : LockAttempt :=
  { lockAcquired := true, lockFailureReason := "", lockKey := "key1", unlockResult := none }

/-- A baseline runner: the project lock and working-directory lock are
granted, clone and lookup succeed, the init step prints "A", the plan
step fails with "E", the apply step succeeds with empty output, and the
pull is reported unapproved. -/
def runner0 : DefaultProjectCommandRunner :=
  { locker := fun _ _ _ _ => (lockOk, none)
    lockURLGenerator := fun k => "https://atlantis/lock?id=" ++ k
    initStepRunner := fun _ _ _ => ("A", none)
    planStepRunner := fun _ _ _ => ("", some "E")
    applyStepRunner := fun _ _ _ => ("", none)
    runStepRunner := fun _ _ _ => ("", none)
    pullApprovedChecker := fun _ _ => (false, none)
    workingDirClone := fun _ _ _ _ _ => ("/repos/owner/repo/1/default", none)
    workingDirGetWorkingDir := fun _ _ _ => ("/repos/owner/repo/1/default", none)
    webhooksSend := fun _ => none
    workingDirLocker := fun _ _ _ => none
    requireApprovalOverride := false }

/-! ## Claim theorems -/

/-- A GitHub API response whose `Mergeable` pointer is nil, as GitHub
returns while mergeability is still being computed. -/
def githubNilMergeable : GithubClient :=
  { getPullRequestResp := fun _ _ => ({ mergeable := none }, none) }

/-- A GitHub API response with `Mergeable` pointing at `false` — e.g. an
approved pull request that has a merge conflict. -/
def githubMergeableFalse : GithubClient :=
  { getPullRequestResp := fun _ _ => ({ mergeable := some false }, none) }

/-- A GitHub API response with `Mergeable` pointing at `true` — e.g. an
unapproved pull request with no conflicts. -/
def githubMergeableTrue : GithubClient :=
  { getPullRequestResp := fun _ _ => ({ mergeable := some true }, none) }

/-- Claim C4: `PullIsApproved` does not return the pull request's review-approval
status: it returns the response's `Mergeable` flag.  Evaluated at the
failing input — a pull request that is approved by review but has a merge
conflict (`Mergeable` = false) — the function returns `false`; on an
unapproved conflict-free pull (`Mergeable` = true) it returns `true`.
The return value tracks mergeability, never approval, contradicting the
function's own doc comment `PullIsApproved returns true if the pull
request was approved`. -/
theorem pullIsApproved_returns_mergeable_flag :
    PullIsApproved githubMergeableFalse repo0 pull0 = PanicOr.ok (false, none) ∧
    PullIsApproved githubMergeableTrue repo0 pull0 = PanicOr.ok (true, none) :=
  ⟨rfl, rfl⟩

/-- Claim C10: dereferencing `request.Mergeable` is not safe for every successful
`GetPullRequest` response: when GitHub leaves the `Mergeable` field unset
(nil), `PullIsApproved` hits a nil-pointer dereference (a runtime panic)
instead of returning. -/
theorem pullIsApproved_nil_mergeable_panics :
    PullIsApproved githubNilMergeable repo0 pull0 = PanicOr.panicked := rfl

/-- Claim C5: when the project-lock attempt returns no error but reports the lock
as not acquired, `Plan` returns the attempt's failure reason with no error
and no success payload, and the trace shows no further work: no
working-directory lock attempt, no clone, no step execution — the only
recorded effect is the project-lock attempt itself. -/
theorem plan_lock_not_acquired_returns_failure (p : DefaultProjectCommandRunner)
    (ctx : ProjectCommandContext) (att : LockAttempt)
    (h : p.locker ctx.pull ctx.user ctx.workspace
        (Project.mk ctx.baseRepo.fullName ctx.repoRelDir) = (att, none))
    (hacq : att.lockAcquired = false) :
    (Plan p ctx).1.failure = att.lockFailureReason ∧
    (Plan p ctx).1.error = none ∧
    (Plan p ctx).1.planSuccess = none ∧
    (Plan p ctx).2 = [Event.projectLockTry] := by
  simp [Plan, doPlan, h, hacq]

/-- A runner whose project-lock attempt reports contention. -/
def runnerC5 : DefaultProjectCommandRunner :=
  { runner0 with locker := fun _ _ _ _ =>
      ({ lockAcquired := false
         lockFailureReason := "This project is currently locked by #2"
         lockKey := ""
         unlockResult := none }, none) }

/-- Witness for C5 at a concrete contended lock. -/
theorem plan_lock_not_acquired_returns_failure_witness :
    (Plan runnerC5 ctx0).1.failure = "This project is currently locked by #2" ∧
    (Plan runnerC5 ctx0).1.error = none ∧
    (Plan runnerC5 ctx0).1.planSuccess = none ∧
    (Plan runnerC5 ctx0).2 = [Event.projectLockTry] :=
  plan_lock_not_acquired_returns_failure runnerC5 ctx0 _ rfl rfl

/-- Claim C6: when the working-directory lookup in `Apply` fails, the call stops
with only the lookup in its trace — the working-directory lock is never
attempted and no step runs; a not-exist error is replaced by the specific
user-facing "project has not been cloned" error, any other lookup error
is propagated with its message unchanged. -/
theorem apply_workdir_lookup_error_handling (p : DefaultProjectCommandRunner)
    (ctx : ProjectCommandContext) (dir : String) (fe : FsErr)
    (h : p.workingDirGetWorkingDir ctx.baseRepo ctx.pull ctx.workspace = (dir, some fe)) :
    ((Apply p ctx).2 = [Event.getWorkingDirCall] ∧
     (Apply p ctx).1.failure = "" ∧
     (Apply p ctx).1.applySuccess = "") ∧
    (fe.isNotExist = true →
      (Apply p ctx).1.error = some "project has not been cloned–did you run plan?") ∧
    (fe.isNotExist = false → (Apply p ctx).1.error = some fe.msg) := by
  rcases hni : fe.isNotExist <;> simp [Apply, doApply, h, hni]

/-- A runner whose working-directory lookup fails with a not-exist error. -/
def runnerC6 : DefaultProjectCommandRunner :=
  { runner0 with workingDirGetWorkingDir := fun _ _ _ =>
      ("", some { msg := "stat /repos/owner/repo/1/default: no such file or directory"
                  isNotExist := true }) }

/-- Witness for C6 at a concrete not-exist lookup failure. -/
theorem apply_workdir_lookup_error_handling_witness :
    (Apply runnerC6 ctx0).2 = [Event.getWorkingDirCall] ∧
    (Apply runnerC6 ctx0).1.error = some "project has not been cloned–did you run plan?" := by
  have h := apply_workdir_lookup_error_handling runnerC6 ctx0 ""
    { msg := "stat /repos/owner/repo/1/default: no such file or directory"
      isNotExist := true } rfl
  exact ⟨h.1.1, h.2.1 rfl⟩

/-- A runner whose working-directory lock acquisition fails with an error
after the project lock was granted. -/
def runnerC1 : DefaultProjectCommandRunner :=
  { runner0 with workingDirLocker := fun _ _ _ =>
      (some "the default workspace is currently locked by another command") }

/-- Claim C1 counterexample: an execution of `Plan` in which the project lock is
acquired and the working-directory lock acquisition then fails with an
error.  The error is returned to the caller, yet the trace contains no
invocation of the project lock's release function: on this error exit
path the long-lived project lock is leaked. -/
theorem plan_workdir_lock_failure_leaks_project_lock :
    (doPlan runnerC1 ctx0).1.2.2 =
      some "the default workspace is currently locked by another command" ∧
    Event.projectUnlock ∉ (doPlan runnerC1 ctx0).2 := by
  exact ⟨rfl, by decide⟩

/-- Claim C1 amended: once the working-directory lock has also been acquired,
every error exit of `Plan` (clone failure or step-pipeline failure) does
invoke the project lock's release function before returning the error; the
uncovered path is exactly the working-directory lock acquisition failure,
where the project lock is leaked. -/
theorem plan_error_after_workdir_lock_releases_project_lock
    (p : DefaultProjectCommandRunner) (ctx : ProjectCommandContext) (att : LockAttempt)
    (h : p.locker ctx.pull ctx.user ctx.workspace
        (Project.mk ctx.baseRepo.fullName ctx.repoRelDir) = (att, none))
    (hacq : att.lockAcquired = true)
    (hwd : p.workingDirLocker ctx.baseRepo.fullName ctx.pull.num ctx.workspace = none)
    (herr : ((doPlan p ctx).1.2.2).isSome = true) :
    Event.projectUnlock ∈ (doPlan p ctx).2 := by
  rcases hcl : p.workingDirClone ctx.baseRepo ctx.headRepo ctx.pull
      ctx.rebaseRepo ctx.workspace with ⟨dir, cloneErr⟩
  cases cloneErr with
  | some ce => simp [doPlan, h, hacq, hwd, hcl]
  | none =>
    rcases hrs : (runSteps p (planStageFor ctx).steps ctx
        (filepathJoin dir ctx.repoRelDir)).2.1 with _ | e
    · simp [doPlan, h, hacq, hwd, hcl, hrs] at herr
    · simp [doPlan, h, hacq, hwd, hcl, hrs]

/-- Witness for the amended C1: with the baseline runner the plan step
fails, and the trace of the run contains the project-lock release. -/
theorem plan_error_after_workdir_lock_releases_project_lock_witness :
    Event.projectUnlock ∈ (doPlan runner0 ctx0).2 :=
  plan_error_after_workdir_lock_releases_project_lock runner0 ctx0 lockOk
    rfl rfl rfl (by decide)

/-- Tests whether `sub` occurs at position `i` of the character list `s`. -/
def substrAt (s sub : List Char) (i : Nat) : Bool :=
  (s.drop i).take sub.length == sub

/-- Tests whether some occurrence of `first` starts strictly before some
occurrence of `second` in `s` (by character position). -/
def precedesIn (first second s : String) : Bool :=
  (List.range (s.toList.length + 1)).any (fun i =>
    substrAt s.toList first.toList i &&
    (List.range (s.toList.length + 1)).any (fun j =>
      decide (i < j) && substrAt s.toList second.toList j))

/-- Claim C2 counterexample: with the default plan stage `[init, plan]`, `init`
succeeding with output "A" and `plan` failing with error "E", the error
returned by `Plan` has message "E\nA".  It contains both pieces, but the
output does not precede the error message in the combined text: the error
precedes the output. -/
theorem plan_step_error_output_order_counterexample :
    (doPlan runner0 ctx0).1.2.2 = some "E\nA" ∧
    precedesIn "A" "E" "E\nA" = false ∧
    precedesIn "E" "A" "E\nA" = true :=
  ⟨rfl, by decide, by decide⟩

/-- Claim C2 amended: when the step pipeline fails, `Plan` and `Apply` return an
error whose message is the failure message followed by the accumulated
output, joined by a newline — both pieces are embedded, with the error
message preceding the output. -/
theorem step_error_message_embeds_error_then_output
    (p : DefaultProjectCommandRunner) (ctx : ProjectCommandContext) :
    (∀ att dir outs e,
      p.locker ctx.pull ctx.user ctx.workspace
        (Project.mk ctx.baseRepo.fullName ctx.repoRelDir) = (att, none) →
      att.lockAcquired = true →
      p.workingDirLocker ctx.baseRepo.fullName ctx.pull.num ctx.workspace = none →
      p.workingDirClone ctx.baseRepo ctx.headRepo ctx.pull ctx.rebaseRepo
        ctx.workspace = (dir, none) →
      (runSteps p (planStageFor ctx).steps ctx (filepathJoin dir ctx.repoRelDir)).1
        = outs →
      (runSteps p (planStageFor ctx).steps ctx (filepathJoin dir ctx.repoRelDir)).2.1
        = some e →
      (Plan p ctx).1.error = some (e ++ "\n" ++ String.intercalate "\n" outs)) ∧
    (∀ dir outs e,
      p.workingDirGetWorkingDir ctx.baseRepo ctx.pull ctx.workspace = (dir, none) →
      (checkApplyRequirements p ctx (effectiveApplyRequirements p ctx)).1
        = ReqOutcome.ok →
      p.workingDirLocker ctx.baseRepo.fullName ctx.pull.num ctx.workspace = none →
      (runSteps p (applyStageFor ctx).steps ctx (filepathJoin dir ctx.repoRelDir)).1
        = outs →
      (runSteps p (applyStageFor ctx).steps ctx (filepathJoin dir ctx.repoRelDir)).2.1
        = some e →
      (Apply p ctx).1.error = some (e ++ "\n" ++ String.intercalate "\n" outs)) := by
  constructor
  · intro att dir outs e h hacq hwd hcl houts herr
    subst houts
    simp [Plan, doPlan, h, hacq, hwd, hcl, herr]
  · intro dir outs e hgw hrq hwd houts herr
    subst houts
    simp [Apply, doApply, hgw, hrq, hwd, herr]

/-- A runner whose apply step fails with error "F" after printing
"partial". -/
def runnerC2a : DefaultProjectCommandRunner :=
  { runner0 with applyStepRunner := fun _ _ _ => ("partial", some "F") }

/-- Witness for the amended C2 at concrete failing pipelines for both
commands. -/
theorem step_error_message_embeds_error_then_output_witness :
    (Plan runner0 ctx0).1.error = some ("E" ++ "\n" ++ String.intercalate "\n" ["A"]) ∧
    (Apply runnerC2a ctx0).1.error =
      some ("F" ++ "\n" ++ String.intercalate "\n" ["partial"]) :=
  ⟨(step_error_message_embeds_error_then_output runner0 ctx0).1 lockOk
      "/repos/owner/repo/1/default" ["A"] "E" rfl rfl rfl rfl rfl rfl,
   (step_error_message_embeds_error_then_output runnerC2a ctx0).2
      "/repos/owner/repo/1/default" ["partial"] "F" rfl rfl rfl rfl rfl⟩

/-- Counts how many of the four payload fields of a `ProjectResult` are
populated: a non-nil plan success, a non-empty apply output, a non-empty
failure reason, a non-nil error. -/
def populatedCount (r : ProjectResult) : Nat :=
  (if r.planSuccess.isSome then 1 else 0) +
  (if r.applySuccess ≠ "" then 1 else 0) +
  (if r.failure ≠ "" then 1 else 0) +
  (if r.error.isSome then 1 else 0)

/-- Claim C3 counterexample: an `Apply` run in which every collaborator succeeds
but the single apply step produces empty output yields a result with all
four payload fields empty — the "all four empty never occurs" half of the
claim is violated by the code. -/
theorem apply_all_empty_result_counterexample :
    populatedCount (Apply runner0 ctx0).1 = 0 := rfl

/-- Payload count of a `doPlan` result triple. -/
def planTripleCount (t : Option PlanSuccess × String × GoErr) : Nat :=
  (if t.1.isSome then 1 else 0) + (if t.2.1 ≠ "" then 1 else 0) +
    (if t.2.2.isSome then 1 else 0)

/-- Payload count of a `doApply` result triple. -/
def applyTripleCount (t : String × String × GoErr) : Nat :=
  (if t.1 ≠ "" then 1 else 0) + (if t.2.1 ≠ "" then 1 else 0) +
    (if t.2.2.isSome then 1 else 0)

/-- On every branch, `doPlan` populates at most one payload field. -/
lemma doPlan_at_most_one (p : DefaultProjectCommandRunner)
    (ctx : ProjectCommandContext) : planTripleCount (doPlan p ctx).1 ≤ 1 := by
  rcases hla : p.locker ctx.pull ctx.user ctx.workspace
      (Project.mk ctx.baseRepo.fullName ctx.repoRelDir) with ⟨att, err⟩
  cases err with
  | some e => simp [doPlan, planTripleCount, hla]
  | none =>
    cases hacq : att.lockAcquired with
    | false =>
      simp [doPlan, planTripleCount, hla, hacq]
      split <;> simp
    | true =>
      cases hwd : p.workingDirLocker ctx.baseRepo.fullName ctx.pull.num
          ctx.workspace with
      | some e => simp [doPlan, planTripleCount, hla, hacq, hwd]
      | none =>
        rcases hcl : p.workingDirClone ctx.baseRepo ctx.headRepo ctx.pull
            ctx.rebaseRepo ctx.workspace with ⟨dir, cerr⟩
        cases cerr with
        | some ce => simp [doPlan, planTripleCount, hla, hacq, hwd, hcl]
        | none =>
          cases hrs : (runSteps p (planStageFor ctx).steps ctx
              (filepathJoin dir ctx.repoRelDir)).2.1 with
          | some e => simp [doPlan, planTripleCount, hla, hacq, hwd, hcl, hrs]
          | none => simp [doPlan, planTripleCount, hla, hacq, hwd, hcl, hrs]

/-- On every branch, `doApply` populates at most one payload field. -/
lemma doApply_at_most_one (p : DefaultProjectCommandRunner)
    (ctx : ProjectCommandContext) : applyTripleCount (doApply p ctx).1 ≤ 1 := by
  rcases hgw : p.workingDirGetWorkingDir ctx.baseRepo ctx.pull ctx.workspace
      with ⟨dir, gerr⟩
  cases gerr with
  | some fe =>
    cases hni : fe.isNotExist <;>
      simp [doApply, applyTripleCount, hgw, hni]
  | none =>
    cases hrq : (checkApplyRequirements p ctx
        (effectiveApplyRequirements p ctx)).1 with
    | error e => simp [doApply, applyTripleCount, hgw, hrq]
    | failure f =>
      simp [doApply, applyTripleCount, hgw, hrq]
      split <;> simp
    | ok =>
      cases hwd : p.workingDirLocker ctx.baseRepo.fullName ctx.pull.num
          ctx.workspace with
      | some e => simp [doApply, applyTripleCount, hgw, hrq, hwd]
      | none =>
        cases hrs : (runSteps p (applyStageFor ctx).steps ctx
            (filepathJoin dir ctx.repoRelDir)).2.1 with
        | some e => simp [doApply, applyTripleCount, hgw, hrq, hwd, hrs]
        | none =>
          simp only [doApply, applyTripleCount, hgw, hrq, hwd, hrs]
          split <;> simp

/-- Claim C3 amended: every result of `Plan` or `Apply` has at most one of
{plan-success, apply-success, failure-reason, error} populated — failure
and error are never both set and neither coexists with a success payload —
but a result with all four empty can occur (a lock attempt reporting
contention with an empty reason string, or a successful apply whose steps
all print nothing). -/
theorem plan_apply_at_most_one_populated (p : DefaultProjectCommandRunner)
    (ctx : ProjectCommandContext) :
    populatedCount (Plan p ctx).1 ≤ 1 ∧ populatedCount (Apply p ctx).1 ≤ 1 := by
  constructor
  · have h := doPlan_at_most_one p ctx
    simp [planTripleCount] at h
    simp [Plan, populatedCount]
    omega
  · have h := doApply_at_most_one p ctx
    simp [applyTripleCount] at h
    simp [Apply, populatedCount]
    omega

/-- Every effect of the requirements loop is an approval check: it never
touches a lock and never dispatches a step. -/
lemma checkApplyRequirements_events (p : DefaultProjectCommandRunner)
    (ctx : ProjectCommandContext) : ∀ reqs ev,
    ev ∈ (checkApplyRequirements p ctx reqs).2 → ev = Event.approvalCheck := by
  intro reqs
  induction reqs with
  | nil => intro ev h; simp [checkApplyRequirements] at h
  | cons req rest ih =>
    intro ev h
    by_cases hreq : req = ApprovedApplyRequirement
    · rcases hac : p.pullApprovedChecker ctx.baseRepo ctx.pull with ⟨app, err⟩
      cases err with
      | some e =>
        simp [checkApplyRequirements, hreq, hac] at h
        exact h
      | none =>
        cases app with
        | false =>
          simp [checkApplyRequirements, hreq, hac] at h
          exact h
        | true =>
          simp [checkApplyRequirements, hreq, hac] at h
          rcases h with h | h
          · exact h
          · exact ih ev h
    · simp [checkApplyRequirements, hreq] at h
      exact ih ev h

/-- When the effective list contains "approved" and the checker reports
the pull unapproved without error, the loop stops with the fixed failure
message. -/
lemma checkApplyRequirements_unapproved (p : DefaultProjectCommandRunner)
    (ctx : ProjectCommandContext)
    (hac : p.pullApprovedChecker ctx.baseRepo ctx.pull = (false, none)) :
    ∀ reqs, ApprovedApplyRequirement ∈ reqs →
    (checkApplyRequirements p ctx reqs).1 =
      ReqOutcome.failure "Pull request must be approved before running apply." := by
  intro reqs
  induction reqs with
  | nil => intro h; simp at h
  | cons req rest ih =>
    intro h
    by_cases hreq : req = ApprovedApplyRequirement
    · simp [checkApplyRequirements, hreq, hac]
    · have hm : ApprovedApplyRequirement ∈ rest := by
        rcases List.mem_cons.mp h with h1 | h1
        · exact absurd h1.symm hreq
        · exact h1
      simp [checkApplyRequirements, hreq, ih hm]

/-- When the effective list contains "approved" and the approval check
itself fails, the loop stops with the wrapped error. -/
lemma checkApplyRequirements_check_error (p : DefaultProjectCommandRunner)
    (ctx : ProjectCommandContext) (b : Bool) (e : String)
    (hac : p.pullApprovedChecker ctx.baseRepo ctx.pull = (b, some e)) :
    ∀ reqs, ApprovedApplyRequirement ∈ reqs →
    (checkApplyRequirements p ctx reqs).1 =
      ReqOutcome.error (errorsWrap "checking if pull request was approved" e) := by
  intro reqs
  induction reqs with
  | nil => intro h; simp at h
  | cons req rest ih =>
    intro h
    by_cases hreq : req = ApprovedApplyRequirement
    · simp [checkApplyRequirements, hreq, hac]
    · have hm : ApprovedApplyRequirement ∈ rest := by
        rcases List.mem_cons.mp h with h1 | h1
        · exact absurd h1.symm hreq
        · exact h1
      simp [checkApplyRequirements, hreq, ih hm]

/-- Claim C7: the server-wide approval override replaces the effective
requirement set wholesale with the single "approved" requirement; when
the effective set contains "approved" and the pull is reported
unapproved, `Apply` returns the fixed failure reason with no error, never
attempts the working-directory lock and dispatches no step; when the
approval check itself errors, `Apply` returns the wrapped error, not a
failure. -/
theorem apply_requirement_gating (p : DefaultProjectCommandRunner)
    (ctx : ProjectCommandContext) :
    (p.requireApprovalOverride = true →
      effectiveApplyRequirements p ctx = [ApprovedApplyRequirement]) ∧
    (∀ dir,
      p.workingDirGetWorkingDir ctx.baseRepo ctx.pull ctx.workspace = (dir, none) →
      ApprovedApplyRequirement ∈ effectiveApplyRequirements p ctx →
      p.pullApprovedChecker ctx.baseRepo ctx.pull = (false, none) →
      (Apply p ctx).1.failure = "Pull request must be approved before running apply." ∧
      (Apply p ctx).1.error = none ∧
      Event.workDirLockTry ∉ (Apply p ctx).2 ∧
      (∀ k i, Event.stepExec k i ∉ (Apply p ctx).2)) ∧
    (∀ dir b e,
      p.workingDirGetWorkingDir ctx.baseRepo ctx.pull ctx.workspace = (dir, none) →
      ApprovedApplyRequirement ∈ effectiveApplyRequirements p ctx →
      p.pullApprovedChecker ctx.baseRepo ctx.pull = (b, some e) →
      (Apply p ctx).1.error =
        some (errorsWrap "checking if pull request was approved" e) ∧
      (Apply p ctx).1.failure = "") := by
  refine ⟨?_, ?_, ?_⟩
  · intro hov
    simp [effectiveApplyRequirements, hov]
  · intro dir hgw hmem hac
    have hrq := checkApplyRequirements_unapproved p ctx hac _ hmem
    have htr : (Apply p ctx).2 =
        Event.getWorkingDirCall ::
          (checkApplyRequirements p ctx (effectiveApplyRequirements p ctx)).2 := by
      simp [Apply, doApply, hgw, hrq]
    refine ⟨by simp [Apply, doApply, hgw, hrq],
            by simp [Apply, doApply, hgw, hrq], ?_, ?_⟩
    · rw [htr]
      intro hmem2
      rcases List.mem_cons.mp hmem2 with h1 | h1
      · exact Event.noConfusion h1
      · exact Event.noConfusion (checkApplyRequirements_events p ctx _ _ h1)
    · intro k i
      rw [htr]
      intro hmem2
      rcases List.mem_cons.mp hmem2 with h1 | h1
      · exact Event.noConfusion h1
      · exact Event.noConfusion (checkApplyRequirements_events p ctx _ _ h1)
  · intro dir b e hgw hmem hac
    have hrq := checkApplyRequirements_check_error p ctx b e hac _ hmem
    exact ⟨by simp [Apply, doApply, hgw, hrq], by simp [Apply, doApply, hgw, hrq]⟩

/-- A context whose project config demands the "approved" requirement. -/
def ctxC7 : ProjectCommandContext :=
  { ctx0 with projectConfig :=
      (some { workflow := none, applyRequirements := ["approved"] }) }

/-- A runner with the server-wide approval override set. -/
def runnerC7o : DefaultProjectCommandRunner :=
  { runner0 with requireApprovalOverride := true }

/-- A runner whose approval check itself fails. -/
def runnerC7e : DefaultProjectCommandRunner :=
  { runner0 with pullApprovedChecker := fun _ _ => (false, some "github down") }

/-- Witness for C7 at concrete inputs: the override forces the singleton
set; an unapproved pull yields the failure reason with no lock attempt
and no step; a failing approval check yields the wrapped error. -/
theorem apply_requirement_gating_witness :
    effectiveApplyRequirements runnerC7o ctx0 = [ApprovedApplyRequirement] ∧
    ((Apply runner0 ctxC7).1.failure =
        "Pull request must be approved before running apply." ∧
      (Apply runner0 ctxC7).1.error = none ∧
      Event.workDirLockTry ∉ (Apply runner0 ctxC7).2) ∧
    (Apply runnerC7e ctxC7).1.error =
      some (errorsWrap "checking if pull request was approved" "github down") := by
  have h2 := (apply_requirement_gating runner0 ctxC7).2.1
    "/repos/owner/repo/1/default" rfl (by decide) rfl
  have h3 := (apply_requirement_gating runnerC7e ctxC7).2.2
    "/repos/owner/repo/1/default" false "github down" rfl (by decide) rfl
  exact ⟨(apply_requirement_gating runnerC7o ctx0).1 rfl,
         ⟨h2.1, h2.2.1, h2.2.2.1⟩, h3.1⟩

/-- Output of one step, per the dispatch switch. -/
def stepOut (p : DefaultProjectCommandRunner) (ctx : ProjectCommandContext)
    (absPath : String) (st : Step) : String :=
  (execStep p ctx absPath st).1

/-- Error of one step, per the dispatch switch. -/
def stepErr (p : DefaultProjectCommandRunner) (ctx : ProjectCommandContext)
    (absPath : String) (st : Step) : GoErr :=
  (execStep p ctx absPath st).2.1

/-- The executor dispatched for one step, `none` for unknown names. -/
def stepKind (p : DefaultProjectCommandRunner) (ctx : ProjectCommandContext)
    (absPath : String) (st : Step) : Option String :=
  (execStep p ctx absPath st).2.2

/-- The non-empty outputs of the given steps, in order. -/
def collectOutputs (p : DefaultProjectCommandRunner) (ctx : ProjectCommandContext)
    (absPath : String) (steps : List Step) : List String :=
  (steps.map (stepOut p ctx absPath)).filter (fun o => o ≠ "")

/-- The executor-dispatch events of the given steps, in order, starting at
position `i`. -/
def execEventsFrom (p : DefaultProjectCommandRunner) (ctx : ProjectCommandContext)
    (absPath : String) : List Step → Nat → List Event
  | [], _ => []
  | st :: rest, i =>
    (match stepKind p ctx absPath st with
     | some k => [Event.stepExec k i]
     | none => []) ++ execEventsFrom p ctx absPath rest (i + 1)

/-- Unfolds the loop up to the first failing step. -/
lemma runStepsFrom_first_error_aux (p : DefaultProjectCommandRunner)
    (ctx : ProjectCommandContext) (absPath : String) (st : Step) (e : String)
    (post : List Step) (hst : stepErr p ctx absPath st = some e) :
    ∀ pre, (∀ s ∈ pre, stepErr p ctx absPath s = none) → ∀ i acc,
    runStepsFrom p ctx absPath (pre ++ st :: post) i acc =
      (acc ++ collectOutputs p ctx absPath (pre ++ [st]), some e,
       execEventsFrom p ctx absPath (pre ++ [st]) i) := by
  intro pre
  induction pre with
  | nil =>
    intro _ i acc
    rcases hex : execStep p ctx absPath st with ⟨out, err, kind⟩
    have herr : err = some e := by
      have h := hst
      rw [stepErr, hex] at h
      exact h
    subst herr
    by_cases hout : out = ""
    · subst hout
      simp [runStepsFrom, hex, collectOutputs, execEventsFrom, stepOut, stepKind]
    · simp [runStepsFrom, hex, collectOutputs, execEventsFrom, stepOut, stepKind,
        hout]
  | cons s pre ih =>
    intro hpre i acc
    rcases hex : execStep p ctx absPath s with ⟨out, err, kind⟩
    have herr : err = none := by
      have h := hpre s (List.mem_cons_self s pre)
      rw [stepErr, hex] at h
      exact h
    subst herr
    have hrest : ∀ x ∈ pre, stepErr p ctx absPath x = none := by
      intro x hx
      exact hpre x (List.mem_cons_of_mem s hx)
    by_cases hout : out = ""
    · subst hout
      simp [runStepsFrom, hex, collectOutputs, execEventsFrom, stepOut, stepKind,
        ih hrest]
    · simp [runStepsFrom, hex, collectOutputs, execEventsFrom, stepOut, stepKind,
        hout, ih hrest]

/-- Unfolds the loop when every step succeeds. -/
lemma runStepsFrom_all_ok_aux (p : DefaultProjectCommandRunner)
    (ctx : ProjectCommandContext) (absPath : String) :
    ∀ steps, (∀ s ∈ steps, stepErr p ctx absPath s = none) → ∀ i acc,
    runStepsFrom p ctx absPath steps i acc =
      (acc ++ collectOutputs p ctx absPath steps, none,
       execEventsFrom p ctx absPath steps i) := by
  intro steps
  induction steps with
  | nil =>
    intro _ i acc
    simp [runStepsFrom, collectOutputs, execEventsFrom]
  | cons s rest ih =>
    intro hok i acc
    rcases hex : execStep p ctx absPath s with ⟨out, err, kind⟩
    have herr : err = none := by
      have h := hok s (List.mem_cons_self s rest)
      rw [stepErr, hex] at h
      exact h
    subst herr
    have hrest : ∀ x ∈ rest, stepErr p ctx absPath x = none := by
      intro x hx
      exact hok x (List.mem_cons_of_mem s hx)
    by_cases hout : out = ""
    · subst hout
      simp [runStepsFrom, hex, collectOutputs, execEventsFrom, stepOut, stepKind,
        ih hrest]
    · simp [runStepsFrom, hex, collectOutputs, execEventsFrom, stepOut, stepKind,
        hout, ih hrest]

/-- Claim C8: the step pipeline executes steps strictly in the given order
(the dispatch-event trace enumerates the steps at increasing positions),
appends each step's output only when non-empty, and on the first failing
step stops immediately — no executor of any later step is dispatched, the
trace covers exactly the steps up to and including the failing one — and
returns that step's error together with the outputs accumulated so far;
when no step fails it returns all non-empty outputs with a nil error. -/
theorem runSteps_pipeline_contract (p : DefaultProjectCommandRunner)
    (ctx : ProjectCommandContext) (absPath : String) :
    (∀ steps, (∀ s ∈ steps, stepErr p ctx absPath s = none) →
      runSteps p steps ctx absPath =
        (collectOutputs p ctx absPath steps, none,
         execEventsFrom p ctx absPath steps 0)) ∧
    (∀ pre st post e, (∀ s ∈ pre, stepErr p ctx absPath s = none) →
      stepErr p ctx absPath st = some e →
      runSteps p (pre ++ st :: post) ctx absPath =
        (collectOutputs p ctx absPath (pre ++ [st]), some e,
         execEventsFrom p ctx absPath (pre ++ [st]) 0)) := by
  constructor
  · intro steps hok
    have h := runStepsFrom_all_ok_aux p ctx absPath steps hok 0 []
    simpa [runSteps] using h
  · intro pre st post e hpre hst
    have h := runStepsFrom_first_error_aux p ctx absPath st e post hst pre hpre 0 []
    simpa [runSteps] using h

/-- A plain init step, as in the built-in default plan stage. -/
def stepInit : Step := { stepName := "init", extraArgs := [], runCommand := [] }

/-- A plain plan step, as in the built-in default plan stage. -/
def stepPlan : Step := { stepName := "plan", extraArgs := [], runCommand := [] }

/-- A step with an unrecognized name. -/
def stepCustom : Step := { stepName := "custom", extraArgs := [], runCommand := [] }

/-- Witness for C8: a fully successful pipeline and a pipeline whose
second step fails, evaluated at the baseline runner. -/
theorem runSteps_pipeline_contract_witness :
    runSteps runner0 [stepInit] ctx0 "/x" =
      (["A"], none, [Event.stepExec "init" 0]) ∧
    runSteps runner0 ([stepInit] ++ stepPlan :: []) ctx0 "/x" =
      (["A"], some "E", [Event.stepExec "init" 0, Event.stepExec "plan" 1]) := by
  constructor
  · exact ((runSteps_pipeline_contract runner0 ctx0 "/x").1 [stepInit]
      (by decide)).trans (by decide)
  · exact ((runSteps_pipeline_contract runner0 ctx0 "/x").2 [stepInit] stepPlan []
      "E" (by decide) (by decide)).trans (by decide)

/-- The dispatch switch sends a step with an unrecognized name nowhere:
no executor, empty output, nil error. -/
lemma execStep_unknown (p : DefaultProjectCommandRunner)
    (ctx : ProjectCommandContext) (absPath : String) (st : Step)
    (h : st.stepName ∉ (["init", "plan", "apply", "run"] : List String)) :
    execStep p ctx absPath st = ("", none, none) := by
  unfold execStep
  split <;> simp_all

/-- The outputs and error of the loop do not depend on the starting
position (which only feeds the trace). -/
lemma runStepsFrom_result_index_irrelevant (p : DefaultProjectCommandRunner)
    (ctx : ProjectCommandContext) (absPath : String) :
    ∀ steps i j acc,
    (runStepsFrom p ctx absPath steps i acc).1 =
      (runStepsFrom p ctx absPath steps j acc).1 ∧
    (runStepsFrom p ctx absPath steps i acc).2.1 =
      (runStepsFrom p ctx absPath steps j acc).2.1 := by
  intro steps
  induction steps with
  | nil => intro i j acc; simp [runStepsFrom]
  | cons s rest ih =>
    intro i j acc
    rcases hex : execStep p ctx absPath s with ⟨out, err, kind⟩
    cases err with
    | some e => simp [runStepsFrom, hex]
    | none => simp [runStepsFrom, hex, ih (i + 1) (j + 1)]

/-- Every dispatch event in the loop's trace names the position of a step
of the list whose dispatch kind matches. -/
lemma runStepsFrom_event_positions (p : DefaultProjectCommandRunner)
    (ctx : ProjectCommandContext) (absPath : String) :
    ∀ steps i acc k j,
    Event.stepExec k j ∈ (runStepsFrom p ctx absPath steps i acc).2.2 →
    ∃ st, steps[j - i]? = some st ∧ i ≤ j ∧
      stepKind p ctx absPath st = some k := by
  intro steps
  induction steps with
  | nil => intro i acc k j h; simp [runStepsFrom] at h
  | cons s rest ih =>
    intro i acc k j h
    rcases hex : execStep p ctx absPath s with ⟨out, err, kind⟩
    cases err with
    | some e =>
      rw [runStepsFrom] at h
      simp only [hex] at h
      rcases kind with _ | kd
      · simp at h
      · simp at h
        rcases h with ⟨hk, hj⟩
        refine ⟨s, ?_, le_of_eq hj.symm, ?_⟩
        · simp [hj]
        · simp [stepKind, hex, hk]
    | none =>
      rw [runStepsFrom] at h
      simp only [hex] at h
      have hsplit : Event.stepExec k j ∈
          (match (kind : Option String) with
            | some kd => [Event.stepExec kd i]
            | none => []) ∨
          Event.stepExec k j ∈
            (runStepsFrom p ctx absPath rest (i + 1)
              (if out ≠ "" then acc ++ [out] else acc)).2.2 := by
        rcases kind with _ | kd <;> simp_all
      rcases hsplit with hml | hmr
      · rcases kind with _ | kd
        · simp at hml
        · simp at hml
          rcases hml with ⟨hk, hj⟩
          refine ⟨s, ?_, le_of_eq hj.symm, ?_⟩
          · simp [hj]
          · simp [stepKind, hex, hk]
      · rcases ih (i + 1) (if out ≠ "" then acc ++ [out] else acc) k j hmr
          with ⟨st, hget, hle, hkind⟩
        refine ⟨st, ?_, by omega, hkind⟩
        have : j - i = (j - (i + 1)) + 1 := by omega
        rw [this]
        simpa using hget

/-- Removing a step the switch does not recognize changes neither the
outputs nor the error of the loop. -/
lemma runStepsFrom_skip_unknown_aux (p : DefaultProjectCommandRunner)
    (ctx : ProjectCommandContext) (absPath : String) (st : Step) (post : List Step)
    (hex : execStep p ctx absPath st = ("", none, none)) :
    ∀ pre i acc,
    (runStepsFrom p ctx absPath (pre ++ st :: post) i acc).1 =
      (runStepsFrom p ctx absPath (pre ++ post) i acc).1 ∧
    (runStepsFrom p ctx absPath (pre ++ st :: post) i acc).2.1 =
      (runStepsFrom p ctx absPath (pre ++ post) i acc).2.1 := by
  intro pre
  induction pre with
  | nil =>
    intro i acc
    have hidx := runStepsFrom_result_index_irrelevant p ctx absPath post (i + 1) i acc
    simpa [runStepsFrom, hex] using hidx
  | cons s pre ih =>
    intro i acc
    rcases hexs : execStep p ctx absPath s with ⟨out, err, kind⟩
    cases err with
    | some e => simp [runStepsFrom, hexs]
    | none => simp [runStepsFrom, hexs, ih (i + 1)]

/-- Claim C9: a step whose name is not one of init, plan, apply or run is
silently skipped: no executor is dispatched for its position, and the
pipeline's outputs and error are identical to running the same sequence
with that step removed. -/
theorem runSteps_unknown_step_skipped (p : DefaultProjectCommandRunner)
    (ctx : ProjectCommandContext) (absPath : String) (pre post : List Step)
    (st : Step)
    (h : st.stepName ∉ (["init", "plan", "apply", "run"] : List String)) :
    (runSteps p (pre ++ st :: post) ctx absPath).1 =
      (runSteps p (pre ++ post) ctx absPath).1 ∧
    (runSteps p (pre ++ st :: post) ctx absPath).2.1 =
      (runSteps p (pre ++ post) ctx absPath).2.1 ∧
    ∀ k, Event.stepExec k pre.length ∉
      (runSteps p (pre ++ st :: post) ctx absPath).2.2 := by
  have hex := execStep_unknown p ctx absPath st h
  have haux := runStepsFrom_skip_unknown_aux p ctx absPath st post hex pre 0 []
  refine ⟨haux.1, haux.2, ?_⟩
  intro k hmem
  rcases runStepsFrom_event_positions p ctx absPath (pre ++ st :: post) 0 [] k
      pre.length hmem with ⟨s, hget, _, hkind⟩
  have hst : s = st := by
    have hat : (pre ++ st :: post)[pre.length]? = some st := by
      rw [List.getElem?_append_right (le_refl pre.length)]
      simp
    rw [Nat.sub_zero] at hget
    rw [hat] at hget
    exact (Option.some.injEq _ _).mp hget.symm ▸ rfl
  subst hst
  rw [stepKind, hex] at hkind
  simp at hkind

/-- Witness for C9: inserting a step named "custom" between init and plan
changes nothing observable, and no executor runs at its position. -/
theorem runSteps_unknown_step_skipped_witness :
    (runSteps runner0 ([stepInit] ++ stepCustom :: [stepPlan]) ctx0 "/x").1 =
      (runSteps runner0 ([stepInit] ++ [stepPlan]) ctx0 "/x").1 ∧
    (runSteps runner0 ([stepInit] ++ stepCustom :: [stepPlan]) ctx0 "/x").2.1 =
      (runSteps runner0 ([stepInit] ++ [stepPlan]) ctx0 "/x").2.1 ∧
    ∀ k, Event.stepExec k [stepInit].length ∉
      (runSteps runner0 ([stepInit] ++ stepCustom :: [stepPlan]) ctx0 "/x").2.2 :=
  runSteps_unknown_step_skipped runner0 ctx0 "/x" [stepInit] [stepPlan] stepCustom
    (by decide)

end Atlantis
